import Mathlib

/-!
Verification of the mdcomp Markdown merger.

This file gives a shallow embedding of the core merge pipeline of the
repository (markdown_merger_c_l_i.py and merger_config.py) and proves or
refutes the frozen claims about it.

Modelling conventions:
- Python strings are Lean String values; string comparison, lowercasing and
  suffix tests are modelled on the underlying code-point list String.data,
  matching the code-point semantics of Python string operations (the
  lowercasing is modelled for the ASCII range, which covers every string the
  program compares).
- Python sorted and list.sort are stable ascending sorts; they are modelled
  by List.insertionSort with the code-point order, which is also stable.
- The filesystem is abstracted: for reading, a map from path to optional
  content, where none models a file that open or UTF-8 decoding rejects
  (read_markdown_file then returns the empty string, as the except branches
  in the source do); for validation, two Boolean predicates modelling
  os.path.exists and os.path.isfile; for directory walking, a finite tree
  of named entries.  os.walk with its default onerror ignores unreadable
  roots, so a missing or non-directory root yields an empty walk.
- Writing to the destination is modelled as building the output string; the
  model has no destination write errors, matching the non-exceptional path
  of merge_markdown_files (the function returns False only when writing
  raises).
-/

namespace MdComp

/-- Code-point comparison of strings, the order Python uses for sorted. -/
def strLe (a b : String) : Prop := a.data ≤ b.data

instance : DecidableRel strLe := fun a b => inferInstanceAs (Decidable (a.data ≤ b.data))

instance : IsTrans String strLe := ⟨fun _ _ _ h1 h2 => le_trans h1 h2⟩

instance : IsTotal String strLe := ⟨fun a b => le_total a.data b.data⟩

instance : IsAntisymm String strLe := ⟨fun _ _ h1 h2 => String.ext (le_antisymm h1 h2)⟩

/-- Python str.endswith on code points. -/
def strEndsWith (s suffix : String) : Bool := suffix.data.isSuffixOf s.data

/-- Python str.lower, modelled on the ASCII range. -/
def pyLower (s : String) : String := ⟨s.data.map Char.toLower⟩

/-! ## MergeEngine: read_markdown_file and merge_markdown_files -/

/-- Embedding of read_markdown_file: reads the file content, returning the
empty string when the file is missing or not decodable (the source prints an
error to stderr and returns the empty string in every except branch). -/
def read_markdown_file (fs : String → Option String) (filepath : String) : String :=
  match fs filepath with
  | some content => content
  | none => ""

/-- The per-file header the merger writes, hard-coded in merge_markdown_files
as the f-string consisting of an HTML comment naming the source path,
followed by a blank line. -/
def headerLine (filepath : String) : String := "<!-- Quelle: " ++ filepath ++ " -->\n\n"

/-- One loop iteration of merge_markdown_files for the file at index i of a
list of n input files: skip the file when its read content is empty,
otherwise write the header, the content, a newline when the content does not
end in one, and the separator when separators are on and i is not the last
index of the input list. -/
def fileContrib (add_separators : Bool) (n i : Nat) (filepath content : String) : String :=
  if content = "" then ""
  else
    headerLine filepath ++ content
      ++ (if strEndsWith content "\n" then "" else "\n")
      ++ (if add_separators ∧ i < n - 1 then "\n---\n\n" else "")

/-- The enumerated loop of merge_markdown_files, concatenating the
contribution of each file in order. -/
def merge_loop (fs : String → Option String) (add_separators : Bool) (n : Nat) :
    Nat → List String → String
  | _, [] => ""
  | i, filepath :: rest =>
      fileContrib add_separators n i filepath (read_markdown_file fs filepath)
        ++ merge_loop fs add_separators n (i + 1) rest

/-- Embedding of merge_markdown_files: the output text written to the
destination, and the returned success flag, which is True on the
non-exceptional path regardless of how many files contributed. -/
def merge_markdown_files (fs : String → Option String) (files : List String)
    (add_separators : Bool) : String × Bool :=
  (merge_loop fs add_separators files.length 0 files, true)

/-! ## FileValidator: validate_input_files -/

/-- The .md name test the source uses: file.lower().endswith with the
Markdown suffix. -/
def is_md_name (f : String) : Bool := strEndsWith (pyLower f) ".md"

/-- A path survives validation when it exists, is a regular file, and has a
Markdown name; the three checks of validate_input_files in source order. -/
def valid_input (exists_p isfile_p : String → Bool) (f : String) : Bool :=
  exists_p f && isfile_p f && is_md_name f

/-- Embedding of validate_input_files: keep the surviving paths in input
order, then return them sorted by code-point order, as the final sorted call
does. -/
def validate_input_files (exists_p isfile_p : String → Bool) (files : List String) :
    List String :=
  List.insertionSort strLe (files.filter (valid_input exists_p isfile_p))

/-- The rejected paths, one warning line each, in input order. -/
def validate_rejected (exists_p isfile_p : String → Bool) (files : List String) :
    List String :=
  files.filter (fun f => !valid_input exists_p isfile_p f)

/-! ## FileCollector: collect_md_files_from_directory -/

/-- A directory tree: the plain-file names of the directory and its named
subdirectories. -/
inductive DirTree where
  | node (files : List String) (subdirs : List (String × DirTree))

/-- Order on subdirectory entries by name, the order dirs.sort() establishes
for the recursive descent of os.walk. -/
def subdirLe (a b : String × DirTree) : Prop := strLe a.1 b.1

instance : DecidableRel subdirLe := fun a b => inferInstanceAs (Decidable (strLe a.1 b.1))

instance : IsTrans (String × DirTree) subdirLe :=
  ⟨fun _ _ _ h1 h2 => le_trans (α := List Char) h1 h2⟩

instance : IsTotal (String × DirTree) subdirLe := ⟨fun a b => le_total a.1.data b.1.data⟩

/-- os.path.join on POSIX paths. -/
def pjoin (root name : String) : String := root ++ "/" ++ name

/-- Embedding of collect_md_files_from_directory on a directory tree: for
each visited directory, list its sorted files filtered to Markdown names,
then recurse into its subdirectories in sorted name order (os.walk top-down,
with dirs.sort() fixing the descent order and sorted(files) fixing the
per-directory file order). -/
def collect_md_files_from_directory (root : String) : DirTree → List String
  | .node files subdirs =>
      ((List.insertionSort strLe files).filter is_md_name).map (pjoin root)
        ++ ((List.insertionSort subdirLe subdirs).attach.map
              (fun e => collect_md_files_from_directory (pjoin root e.1.1) e.1.2)).flatten
termination_by t => sizeOf t
decreasing_by
  obtain ⟨⟨name, t⟩, he⟩ := e
  have h1 : (name, t) ∈ subdirs := (List.perm_insertionSort subdirLe subdirs).mem_iff.mp he
  have h2 := List.sizeOf_lt_of_mem h1
  simp at h2 ⊢
  omega

/-- What the path given to os.walk resolves to: nothing, a non-directory, or
a directory tree. -/
inductive RootStatus where
  | missing
  | nonDir
  | dir (t : DirTree)

/-- Behaviour of the bare collect_md_files_from_directory on an arbitrary
root path: os.walk with its default onerror swallows the scandir error on a
missing or non-directory root and yields no entries, so the function returns
the empty list there. -/
def collect_from_root (root : String) : RootStatus → List String
  | .missing => []
  | .nonDir => []
  | .dir t => collect_md_files_from_directory root t

/-- The fatal collection-time errors of the error taxonomy. -/
inductive CollectError where
  | DirectoryNotFound
  | NotADirectory

/-- Embedding of the directory branch of main: it checks os.path.exists and
os.path.isdir on the root and exits with a diagnostic before any collection
when either check fails; only then does it call
collect_md_files_from_directory. -/
def main_collect_directory (root : String) : RootStatus → Except CollectError (List String)
  | .missing => .error .DirectoryNotFound
  | .nonDir => .error .NotADirectory
  | .dir t => .ok (collect_md_files_from_directory root t)

/-! ## ConfigResolver: MergerConfig -/

/-- Structured configuration values: the scalars, sequences and string-keyed
mappings that YAML or JSON parsing of a config document can produce and that
the default configuration uses.  Mappings are association lists in insertion
order, as Python dicts are. -/
inductive JVal where
  | str (s : String)
  | bool (b : Bool)
  | nat (n : Nat)
  | list (xs : List JVal)
  | dict (entries : List (String × JVal))

/-- Python dict lookup on an association list. -/
def lookupJ : List (String × JVal) → String → Option JVal
  | [], _ => none
  | (k, v) :: rest, key => if k = key then some v else lookupJ rest key

/-- Python dict assignment: replace the entry of an existing key in place,
append a new key at the end. -/
def setJ : List (String × JVal) → String → JVal → List (String × JVal)
  | [], key, v => [(key, v)]
  | (k, w) :: rest, key, v =>
      if k = key then (k, v) :: rest else (k, w) :: setJ rest key v

/-- Embedding of MergerConfig._deep_merge: for each update entry in order,
recurse when both the update value and the existing base value are mappings,
otherwise assign the update value, mutating base left to right. -/
def deep_merge (base : List (String × JVal)) : List (String × JVal) → List (String × JVal)
  | [] => base
  | (k, v) :: rest =>
      match lookupJ base k, v with
      | some (JVal.dict bv), JVal.dict dv =>
          deep_merge (setJ base k (JVal.dict (deep_merge bv dv))) rest
      | _, _ => deep_merge (setJ base k v) rest

/-- An update never replaces a mapping of the base by a non-mapping value,
checked along the exact recursion of deep_merge.  Under this condition the
merge can only refine mappings, never truncate them. -/
def noClobber (base : List (String × JVal)) : List (String × JVal) → Bool
  | [] => true
  | (k, v) :: rest =>
      match lookupJ base k, v with
      | some (JVal.dict bv), JVal.dict dv =>
          noClobber bv dv && noClobber (setJ base k (JVal.dict (deep_merge bv dv))) rest
      | some (JVal.dict _), _ => false
      | _, _ => noClobber (setJ base k v) rest

/-- Embedding of MergerConfig.get with the dotted path already split on the
dots: descend through mappings key by key; any absent key or non-mapping
intermediate value yields the fallback, modelled as none. -/
def getPath : JVal → List String → Option JVal
  | v, [] => some v
  | JVal.dict d, k :: ks =>
      match lookupJ d k with
      | some w => getPath w ks
      | none => none
  | _, _ :: _ => none

/-- MergerConfig.get applied to a configuration tree. -/
def config_get (config : List (String × JVal)) (path : List String) : Option JVal :=
  getPath (JVal.dict config) path

/-- Embedding of MergerConfig._load_default_config, value for value. -/
def default_config : List (String × JVal) :=
  [("output", JVal.dict
      [("encoding", JVal.str "utf-8"),
       ("line_ending", JVal.str "\n"),
       ("add_toc", JVal.bool false),
       ("add_timestamps", JVal.bool false)]),
   ("processing", JVal.dict
      [("skip_empty_files", JVal.bool true),
       ("normalize_line_endings", JVal.bool true),
       ("remove_duplicate_headers", JVal.bool false)]),
   ("separators", JVal.dict
      [("between_files", JVal.str "---"),
       ("add_file_headers", JVal.bool true),
       ("header_format", JVal.str "<!-- Quelle: \x7bfilepath\x7d -->")]),
   ("filters", JVal.dict
      [("exclude_patterns", JVal.list [JVal.str ".git", JVal.str "__pycache__", JVal.str ".DS_Store"]),
       ("include_only", JVal.list [JVal.str ".md"]),
       ("max_file_size_mb", JVal.nat 10)])]

/-- The separators section of the default configuration, as a named list for
use in proofs. -/
def sepDefaults : List (String × JVal) :=
  [("between_files", JVal.str "---"),
   ("add_file_headers", JVal.bool true),
   ("header_format", JVal.str "<!-- Quelle: \x7bfilepath\x7d -->")]

/-- The override file suffixes _load_config_file accepts; any other suffix
raises ValueError inside the try block. -/
def goodSuffix (f : String) : Bool :=
  strEndsWith f ".yaml" || strEndsWith f ".yml" || strEndsWith f ".json"

/-- Embedding of MergerConfig._load_config_file.  The readable flag models
whether open succeeds; parsed models what yaml.safe_load or json.load would
yield on the file content, none standing for a parse error.  Every raising
path (unreadable file, unsupported suffix, parse error, parsed document that
is not a mapping so that update.items() raises) is caught by the except
clause, which prints one warning and leaves the configuration unchanged; the
dict items iteration itself cannot raise, so no partially merged state is
observable.  The Bool of the result records whether the warning was
printed. -/
def load_config_file (config : List (String × JVal)) (config_file : String)
    (readable : Bool) (parsed : Option JVal) : List (String × JVal) × Bool :=
  if !readable then (config, true)
  else if !goodSuffix config_file then (config, true)
  else
    match parsed with
    | some (JVal.dict user_config) => (deep_merge config user_config, false)
    | some _ => (config, true)
    | none => (config, true)

/-! ## Concrete inputs used by the claim theorems -/

/-- Filesystem with the two files of the worked example in the spec: A.md
holding foo without a final newline, B.md holding bar with one. -/
def fsC3 : String → Option String :=
  fun s => if s = "A.md" then some "foo" else if s = "B.md" then some "bar\n" else none

/-- Filesystem where a.md and b.md are readable and c.md is not. -/
def fsSkip : String → Option String :=
  fun s => if s = "a.md" then some "hi\n" else if s = "b.md" then some "yo\n" else none

/-- Filesystem with the single readable file a.md. -/
def fsOne : String → Option String :=
  fun s => if s = "a.md" then some "hi\n" else none

/-- Override document switching the per-file headers off. -/
def headersOffOverride : List (String × JVal) :=
  [("separators", JVal.dict [("add_file_headers", JVal.bool false)])]

/-- Override document replacing the separators mapping by a scalar. -/
def clobberOverride : List (String × JVal) :=
  [("separators", JVal.str "x")]

/-- Override document of the spec example, changing only
separators.between_files. -/
def betweenFilesOverride : List (String × JVal) :=
  [("separators", JVal.dict [("between_files", JVal.str "***")])]

/-- The directory tree of the claim example: b.md and a.md in the root, a
non-Markdown file, and c.md inside the subdirectory sub. -/
def exampleTree : DirTree :=
  .node ["b.md", "notes.txt", "a.md"] [("sub", .node ["c.md"] [])]

/-- A tree with two subdirectories given out of name order and an
upper-case Markdown suffix, exercising descent order and the
case-insensitive name filter. -/
def twoSubdirTree : DirTree :=
  .node ["R.MD"] [("sub", .node ["c.md"] []), ("aaa", .node ["z.md"] [])]


/-! ## Helper lemmas -/

/-- Unfolding of collect_md_files_from_directory with the attach wrapper of
the termination argument removed. -/
theorem collect_node (root : String) (files : List String) (subdirs : List (String × DirTree)) :
    collect_md_files_from_directory root (.node files subdirs)
      = ((List.insertionSort strLe files).filter is_md_name).map (pjoin root)
        ++ ((List.insertionSort subdirLe subdirs).map
              (fun e => collect_md_files_from_directory (pjoin root e.1) e.2)).flatten := by
  rw [collect_md_files_from_directory]
  exact congrArg (fun l => _ ++ List.flatten l)
    (List.attach_map_coe (List.insertionSort subdirLe subdirs)
      (fun e => collect_md_files_from_directory (pjoin root e.1) e.2))

/-- A merge pass over files that all read back empty writes nothing. -/
theorem merge_loop_empty (fs : String → Option String) (b : Bool) (n : Nat) :
    ∀ (l : List String) (i : Nat), (∀ f ∈ l, read_markdown_file fs f = "") →
      merge_loop fs b n i l = "" := by
  intro l
  induction l with
  | nil => intro i _; rfl
  | cons f rest ih =>
      intro i h
      have hf := h f (List.mem_cons_self f rest)
      have hr := ih (i + 1) (fun g hg => h g (List.mem_cons_of_mem f hg))
      simp only [merge_loop, hf, hr]
      rfl

/-- Splitting a filtered list into rejected and surviving parts preserves
the total length. -/
theorem length_filter_not_add (l : List String) (p : String → Bool) :
    (l.filter fun f => !p f).length + (l.filter p).length = l.length := by
  induction l with
  | nil => rfl
  | cons a l ih => by_cases h : p a <;> simp [List.filter, h] <;> omega

/-- Sorting by code-point order is a function of the multiset of strings. -/
theorem insertionSort_strings_eq_of_perm {l1 l2 : List String} (h : l1.Perm l2) :
    List.insertionSort strLe l1 = List.insertionSort strLe l2 :=
  List.eq_of_perm_of_sorted
    ((List.perm_insertionSort strLe l1).trans (h.trans (List.perm_insertionSort strLe l2).symm))
    (List.sorted_insertionSort strLe l1) (List.sorted_insertionSort strLe l2)

/-- Strict name order on subdirectory entries. -/
def subdirLt (a b : String × DirTree) : Prop := a.1.data < b.1.data

/-- A name-sorted entry list with pairwise distinct names is strictly
sorted by name. -/
theorem sorted_subdirLt_of_nodup {l : List (String × DirTree)}
    (hs : List.Sorted subdirLe l) (hn : (l.map Prod.fst).Nodup) :
    List.Pairwise subdirLt l := by
  have hne : List.Pairwise (fun a b : String × DirTree => a.1 ≠ b.1) l :=
    List.pairwise_map.mp hn
  exact (hs.and hne).imp (fun h => lt_of_le_of_ne h.1 (fun hd => h.2 (String.ext hd)))

/-- Sorting subdirectory entries by name is a function of the multiset of
entries when the names are distinct, as they are in a real directory. -/
theorem insertionSort_subdirs_eq_of_perm {l1 l2 : List (String × DirTree)}
    (h : l1.Perm l2) (hn : (l1.map Prod.fst).Nodup) :
    List.insertionSort subdirLe l1 = List.insertionSort subdirLe l2 := by
  haveI : IsAntisymm (String × DirTree) subdirLt :=
    ⟨fun _ _ h1 h2 => absurd h2 (not_lt.mpr (le_of_lt h1))⟩
  have hp : (List.insertionSort subdirLe l1).Perm (List.insertionSort subdirLe l2) :=
    (List.perm_insertionSort subdirLe l1).trans
      (h.trans (List.perm_insertionSort subdirLe l2).symm)
  have hn1 : ((List.insertionSort subdirLe l1).map Prod.fst).Nodup :=
    (((List.perm_insertionSort subdirLe l1).map Prod.fst).nodup_iff).mpr hn
  have hn2 : ((List.insertionSort subdirLe l2).map Prod.fst).Nodup := by
    have h2 := ((h.map Prod.fst).nodup_iff).mp hn
    exact (((List.perm_insertionSort subdirLe l2).map Prod.fst).nodup_iff).mpr h2
  exact List.eq_of_perm_of_sorted hp
    (sorted_subdirLt_of_nodup (List.sorted_insertionSort subdirLe l1) hn1)
    (sorted_subdirLt_of_nodup (List.sorted_insertionSort subdirLe l2) hn2)

/-- Unconditional unfolding of deep_merge on an empty update. -/
theorem deep_merge_nil (base : List (String × JVal)) : deep_merge base [] = base := by
  rw [deep_merge]

/-- Unconditional unfolding of deep_merge on a non-empty update, in match
form. -/
theorem deep_merge_cons (base : List (String × JVal)) (k : String) (v : JVal)
    (rest : List (String × JVal)) :
    deep_merge base ((k, v) :: rest)
      = match lookupJ base k, v with
        | some (JVal.dict bv), JVal.dict dv =>
            deep_merge (setJ base k (JVal.dict (deep_merge bv dv))) rest
        | _, _ => deep_merge (setJ base k v) rest := by
  rw [deep_merge.eq_def]

/-- Unconditional unfolding of noClobber on an empty update. -/
theorem noClobber_nil (base : List (String × JVal)) : noClobber base [] = true := by
  rw [noClobber]

/-- Unconditional unfolding of noClobber on a non-empty update, in match
form. -/
theorem noClobber_cons (base : List (String × JVal)) (k : String) (v : JVal)
    (rest : List (String × JVal)) :
    noClobber base ((k, v) :: rest)
      = match lookupJ base k, v with
        | some (JVal.dict bv), JVal.dict dv =>
            noClobber bv dv && noClobber (setJ base k (JVal.dict (deep_merge bv dv))) rest
        | some (JVal.dict _), _ => false
        | _, _ => noClobber (setJ base k v) rest := by
  rw [noClobber.eq_def]

/-- Lookup of the separators section in the defaults. -/
theorem lookup_separators : lookupJ default_config "separators" = some (JVal.dict sepDefaults) := rfl

/-! ## Claim theorems -/

/-- Claim C3: merging A.md with content foo and B.md with content bar plus
newline, separators and headers enabled, produces in order the header line
for A, a blank line, foo with an appended newline (the content had no final
line terminator), a blank line, the separator token, a blank line, the
header line for B, a blank line, and bar with its newline kept verbatim, no
extra newline appended and no trailing separator after B; the merge reports
success. -/
theorem claim_C3_two_file_example :
    merge_markdown_files fsC3 ["A.md", "B.md"] true
      = ("<!-- Quelle: A.md -->\n\nfoo\n\n---\n\n<!-- Quelle: B.md -->\n\nbar\n", true) := rfl

/-- Claim C9: merge_markdown_files reports success whenever no write error
occurs on the destination (the model has none), even when every source file
was skipped, in which case the destination is written empty; success implies
nothing about how many files contributed. -/
theorem claim_C9_success_without_content :
    (∀ (fs : String → Option String) (files : List String) (add_separators : Bool),
        (merge_markdown_files fs files add_separators).2 = true)
    ∧ (∀ (fs : String → Option String) (files : List String) (add_separators : Bool),
        (∀ f ∈ files, read_markdown_file fs f = "") →
        (merge_markdown_files fs files add_separators).1 = "") := by
  refine ⟨fun _ _ _ => rfl, fun fs files b h => ?_⟩
  exact merge_loop_empty fs b files.length files 0 h

/-- Witness for claim C9 at a filesystem where no listed file is readable:
the output is empty and the result still reports success. -/
theorem claim_C9_success_without_content_witness :
    (merge_markdown_files (fun _ => none) ["a.md", "b.md"] true).1 = ""
    ∧ (merge_markdown_files (fun _ => none) ["a.md", "b.md"] true).2 = true :=
  ⟨claim_C9_success_without_content.2 (fun _ => none) ["a.md", "b.md"] true
      (fun _ _ => rfl),
   claim_C9_success_without_content.1 (fun _ => none) ["a.md", "b.md"] true⟩

/-- Claim C10: a file that reads back as the empty string contributes
nothing to the merged output, no header, no blank line and no appended line
terminator, because the loop skips any falsy content; an empty read result
is the same value the read failure path returns, and merge_markdown_files
consults no configuration at all, so no flag can change this. -/
theorem claim_C10_empty_file_contributes_nothing :
    (∀ (add_separators : Bool) (n i : Nat) (filepath : String),
        fileContrib add_separators n i filepath "" = "")
    ∧ (∀ (fs : String → Option String) (f : String) (add_separators : Bool),
        fs f = some "" → (merge_markdown_files fs [f] add_separators).1 = "") := by
  refine ⟨fun _ _ _ _ => rfl, fun fs f b h => ?_⟩
  have hr : read_markdown_file fs f = "" := by
    unfold read_markdown_file
    rw [h]
  show merge_loop fs b 1 0 [f] = ""
  simp only [merge_loop, hr]
  rfl

/-- Witness for claim C10 at a filesystem holding one existing but empty
file: its merge output is empty. -/
theorem claim_C10_empty_file_contributes_nothing_witness :
    fileContrib true 3 0 "a.md" "" = ""
    ∧ (merge_markdown_files (fun s => if s = "e.md" then some "" else none) ["e.md"] true).1 = "" :=
  ⟨claim_C10_empty_file_contributes_nothing.1 true 3 0 "a.md",
   claim_C10_empty_file_contributes_nothing.2 (fun s => if s = "e.md" then some "" else none)
     "e.md" true rfl⟩

/-- Counterexample to claim C1: resolving the override that sets
separators.add_file_headers to false indeed yields false for that key, yet
merging a single readable file still writes the hard-coded header line, so
the header is not controlled by the resolved configuration. -/
theorem claim_C1_counterexample :
    config_get (deep_merge default_config headersOffOverride) ["separators", "add_file_headers"]
        = some (JVal.bool false)
    ∧ (merge_markdown_files fsOne ["a.md"] true).1 = headerLine "a.md" ++ "hi\n" := by
  constructor
  · simp only [headersOffOverride, deep_merge_cons, deep_merge_nil, lookup_separators,
      show lookupJ sepDefaults "add_file_headers" = some (JVal.bool true) from rfl]
    rfl
  · rfl

/-- Claim C1 as amended: merge_markdown_files writes, before the content of
every surviving file, the fixed header line naming the file path followed by
a blank line, unconditionally; MergerConfig is never consulted by the
merger, so neither separators.add_file_headers nor separators.header_format
changes what is written. -/
theorem claim_C1_header_unconditional :
    (∀ (fs : String → Option String) (add_separators : Bool) (n i : Nat)
        (filepath : String) (rest : List String),
        merge_loop fs add_separators n i (filepath :: rest)
          = fileContrib add_separators n i filepath (read_markdown_file fs filepath)
            ++ merge_loop fs add_separators n (i + 1) rest)
    ∧ (∀ (add_separators : Bool) (n i : Nat) (filepath content : String),
        content ≠ "" →
        ∃ t, fileContrib add_separators n i filepath content = headerLine filepath ++ t) := by
  refine ⟨fun _ _ _ _ _ _ => rfl, fun b n i f c h => ?_⟩
  refine ⟨c ++ ((if strEndsWith c "\n" then "" else "\n")
      ++ (if b ∧ i < n - 1 then "\n---\n\n" else "")), ?_⟩
  simp [fileContrib, h, String.append_assoc]

/-- Witness for the amended claim C1 at a non-empty content. -/
theorem claim_C1_header_unconditional_witness :
    ∃ t, fileContrib false 2 0 "a.md" "hi" = headerLine "a.md" ++ t :=
  claim_C1_header_unconditional.2 false 2 0 "a.md" "hi" (by decide)

/-- Counterexample to claim C2: with a.md and b.md readable and c.md
unreadable, b.md is the last surviving file, yet the separator sequence is
written after its contribution, because the source tests the index against
the full input list, not against the surviving files. -/
theorem claim_C2_counterexample :
    read_markdown_file fsSkip "c.md" = ""
    ∧ (merge_markdown_files fsSkip ["a.md", "b.md", "c.md"] true).1
        = "<!-- Quelle: a.md -->\n\nhi\n\n---\n\n<!-- Quelle: b.md -->\n\nyo\n\n---\n\n"
    ∧ strEndsWith (merge_markdown_files fsSkip ["a.md", "b.md", "c.md"] true).1 "\n---\n\n"
        = true := ⟨rfl, rfl, by decide⟩

/-- Claim C2 as amended: when separators are enabled, the separator sequence
(blank line, the separator token, blank line) follows the contribution of
the file at index i exactly when the file survives and i is not the last
index of the full input list, later skipped files included; so a separator
can trail the last surviving file when a later listed file was skipped. -/
theorem claim_C2_separator_by_input_index :
    ∀ (add_separators : Bool) (n i : Nat) (filepath content : String),
      fileContrib add_separators n i filepath content
        = (if content = "" then ""
           else headerLine filepath ++ content
                  ++ (if strEndsWith content "\n" then "" else "\n"))
          ++ (if add_separators = true ∧ i < n - 1 ∧ content ≠ "" then "\n---\n\n" else "") := by
  intro b n i f c
  by_cases hc : c = ""
  · subst hc
    simp [fileContrib]
  · by_cases hs : b = true ∧ i < n - 1
    · obtain ⟨hb, hi⟩ := hs
      subst hb
      simp [fileContrib, hc, hi, String.append_assoc]
    · have hcond : ¬(b = true ∧ i < n - 1 ∧ c ≠ "") := fun ⟨hb, hi, _⟩ => hs ⟨hb, hi⟩
      have hcond2 : ¬(b = true ∧ i < n - 1) := hs
      by_cases hb : b = true
      · have hi : ¬ i < n - 1 := fun hi => hs ⟨hb, hi⟩
        subst hb
        simp [fileContrib, hc, hi, String.append_assoc]
      · have hb2 : b = false := by cases b <;> simp_all
        subst hb2
        simp [fileContrib, hc, String.append_assoc]

/-- Claim C5: validate_input_files returns exactly the input paths that
exist, are regular files and carry a Markdown name (case-insensitively),
sorted ascending by code-point order of the full path string independently
of the input order; one warning is emitted per rejected path and no
rejection aborts the pass. -/
theorem claim_C5_validate_filters_and_sorts :
    (∀ (exists_p isfile_p : String → Bool) (files : List String),
        List.Sorted strLe (validate_input_files exists_p isfile_p files))
    ∧ (∀ (exists_p isfile_p : String → Bool) (files : List String),
        (validate_input_files exists_p isfile_p files).Perm
          (files.filter (valid_input exists_p isfile_p)))
    ∧ (∀ (exists_p isfile_p : String → Bool) (files1 files2 : List String),
        files1.Perm files2 →
        validate_input_files exists_p isfile_p files1
          = validate_input_files exists_p isfile_p files2)
    ∧ (∀ (exists_p isfile_p : String → Bool) (files : List String),
        (validate_rejected exists_p isfile_p files).length
          + (validate_input_files exists_p isfile_p files).length = files.length) := by
  refine ⟨fun _ _ _ => List.sorted_insertionSort strLe _,
    fun _ _ _ => List.perm_insertionSort strLe _,
    fun _ _ _ _ h => insertionSort_strings_eq_of_perm (h.filter _),
    fun _ _ files => ?_⟩
  unfold validate_input_files validate_rejected
  rw [List.length_insertionSort]
  exact length_filter_not_add files _

/-- Witness for claim C5: two orderings of the same two files validate to
the same sorted list. -/
theorem claim_C5_validate_filters_and_sorts_witness :
    validate_input_files (fun _ => true) (fun _ => true) ["b.md", "a.md"]
      = validate_input_files (fun _ => true) (fun _ => true) ["a.md", "b.md"] :=
  claim_C5_validate_filters_and_sorts.2.2.1 (fun _ => true) (fun _ => true)
    ["b.md", "a.md"] ["a.md", "b.md"] (List.Perm.swap "a.md" "b.md" [])

/-- Claim C6: when the override file is unreadable, its parse fails, or its
name has a suffix other than .yaml, .yml or .json, configuration loading
prints a warning, raises nothing, and leaves the tree equal to the full
default configuration, so a later merge proceeds with defaults. -/
theorem claim_C6_bad_override_keeps_defaults :
    ∀ (config_file : String) (readable : Bool) (parsed : Option JVal),
      readable = false ∨ parsed = none ∨ goodSuffix config_file = false →
      load_config_file default_config config_file readable parsed = (default_config, true) := by
  intro f r p h
  unfold load_config_file
  rcases h with h | h | h
  · subst h
    rfl
  · subst h
    by_cases hg : goodSuffix f <;> cases r <;> simp [hg]
  · rw [h]
    cases r <;> simp

/-- Witness for claim C6 at a well-formed override behind an unsupported
suffix: the defaults survive unchanged and the warning fires. -/
theorem claim_C6_bad_override_keeps_defaults_witness :
    load_config_file default_config "conf.txt" true
        (some (JVal.dict [("separators", JVal.str "x")])) = (default_config, true) :=
  claim_C6_bad_override_keeps_defaults "conf.txt" true
    (some (JVal.dict [("separators", JVal.str "x")])) (Or.inr (Or.inr (by decide)))

/-- Counterexample to claim C7: the bare collector silently returns the
empty list both on a missing root and on a root that is not a directory,
because os.walk yields nothing there; the function itself raises no
error. -/
theorem claim_C7_counterexample :
    collect_from_root "docs" RootStatus.missing = ([] : List String)
    ∧ collect_from_root "docs" RootStatus.nonDir = ([] : List String) := ⟨rfl, rfl⟩

/-- Claim C7 as amended: the existence and directory checks live in the
surrounding main entry point, which fails with the DirectoryNotFound or
NotADirectory diagnostic before any collection, so the program produces no
partial output; the collector itself, reached on such a root, would return
an empty list silently. -/
theorem claim_C7_checks_in_main :
    ∀ root : String,
      main_collect_directory root RootStatus.missing
          = Except.error CollectError.DirectoryNotFound
      ∧ main_collect_directory root RootStatus.nonDir
          = Except.error CollectError.NotADirectory
      ∧ collect_from_root root RootStatus.missing = []
      ∧ collect_from_root root RootStatus.nonDir = [] :=
  fun _ => ⟨rfl, rfl, rfl, rfl⟩

/-- Claim C8: the collector returns the matching files in recursive
traversal order, visiting subdirectories in ascending name order and
listing, within each directory, the Markdown-named files in ascending name
order: the claim example tree yields a.md, b.md, then sub/c.md; a second
tree shows the subdirectory descent order and the case-insensitive suffix
filter; and the result does not depend on the enumeration order the
filesystem presents for files or for (distinctly named) subdirectories. -/
theorem claim_C8_traversal_order :
    collect_md_files_from_directory "d" exampleTree = ["d/a.md", "d/b.md", "d/sub/c.md"]
    ∧ collect_md_files_from_directory "d" twoSubdirTree
        = ["d/R.MD", "d/aaa/z.md", "d/sub/c.md"]
    ∧ (∀ (root : String) (files1 files2 : List String) (subdirs : List (String × DirTree)),
        files1.Perm files2 →
        collect_md_files_from_directory root (.node files1 subdirs)
          = collect_md_files_from_directory root (.node files2 subdirs))
    ∧ (∀ (root : String) (files : List String) (subdirs1 subdirs2 : List (String × DirTree)),
        subdirs1.Perm subdirs2 → (subdirs1.map Prod.fst).Nodup →
        collect_md_files_from_directory root (.node files subdirs1)
          = collect_md_files_from_directory root (.node files subdirs2)) := by
  refine ⟨?_, ?_, ?_, ?_⟩
  · simp +decide [exampleTree, collect_node, pjoin]
  · simp +decide [twoSubdirTree, collect_node, pjoin]
  · intro root files1 files2 subdirs h
    rw [collect_node, collect_node, insertionSort_strings_eq_of_perm h]
  · intro root files subdirs1 subdirs2 h hn
    rw [collect_node, collect_node, insertionSort_subdirs_eq_of_perm h hn]

/-- Witness for claim C8: swapping the enumeration order of two root files
leaves the collected list unchanged. -/
theorem claim_C8_traversal_order_witness :
    collect_md_files_from_directory "d" (.node ["b.md", "a.md"] [])
      = collect_md_files_from_directory "d" (.node ["a.md", "b.md"] []) :=
  claim_C8_traversal_order.2.2.1 "d" ["b.md", "a.md"] ["a.md", "b.md"] []
    (List.Perm.swap "a.md" "b.md" [])

/-- Dict assignment then lookup: the assigned key reads back the assigned
value, every other key is unchanged. -/
theorem lookupJ_setJ (b : List (String × JVal)) (key : String) (v : JVal) (q : String) :
    lookupJ (setJ b key v) q = if key = q then some v else lookupJ b q := by
  induction b with
  | nil => simp only [setJ, lookupJ]
  | cons entry rest ih =>
      obtain ⟨a, w⟩ := entry
      by_cases hak : a = key
      · subst hak
        simp only [setJ, if_pos rfl, lookupJ]
        by_cases haq : a = q
        · simp [haq]
        · simp [haq]
      · simp only [setJ, if_neg hak, lookupJ]
        by_cases haq : a = q
        · subst haq
          have hka : ¬ key = a := fun hk => hak hk.symm
          simp [hka]
        · simp [haq, ih]

/-- Assigning a key whose base entry is not a mapping (or is absent) keeps
every present path of the base present. -/
theorem getPath_setJ_of_not_dict (base : List (String × JVal)) (k : String) (v : JVal)
    (hcond : ∀ bw, lookupJ base k ≠ some (JVal.dict bw)) :
    ∀ path : List String, (getPath (JVal.dict base) path).isSome = true →
      (getPath (JVal.dict (setJ base k v)) path).isSome = true := by
  intro path hp
  cases path with
  | nil => rfl
  | cons q qs =>
      by_cases hqk : q = k
      · subst hqk
        rcases hl : lookupJ base q with _ | w
        · simp only [getPath, hl, Option.isSome_none] at hp
          cases hp
        · simp only [getPath, hl] at hp
          have hset : lookupJ (setJ base q v) q = some v := by
            rw [lookupJ_setJ, if_pos rfl]
          simp only [getPath, hset]
          cases qs with
          | nil => simp [getPath]
          | cons q2 qs2 =>
              cases w with
              | dict bw => exact (hcond bw hl).elim
              | str s => simp [getPath] at hp
              | bool b2 => simp [getPath] at hp
              | nat n2 => simp [getPath] at hp
              | list xs => simp [getPath] at hp
      · have hkq : ¬ k = q := fun hk => hqk hk.symm
        simp only [getPath, lookupJ_setJ, if_neg hkq]
        simp only [getPath] at hp
        exact hp

/-- Every path present in the base configuration stays present through
deep_merge whenever the update never replaces a base mapping by a
non-mapping value. -/
theorem deep_merge_preserves (base update : List (String × JVal))
    (h : noClobber base update = true) :
    ∀ path : List String, (getPath (JVal.dict base) path).isSome = true →
      (getPath (JVal.dict (deep_merge base update)) path).isSome = true := by
  induction base, update using deep_merge.induct with
  | case1 base =>
      rw [deep_merge_nil]
      exact fun _ hp => hp
  | case2 base k rest bv dv hlk ih1 ih2 =>
      simp only [noClobber_cons, hlk, Bool.and_eq_true] at h
      obtain ⟨h1, h2⟩ := h
      simp only [deep_merge_cons, hlk]
      intro path hp
      apply ih2 h2
      cases path with
      | nil => rfl
      | cons q qs =>
          by_cases hqk : q = k
          · subst hqk
            simp only [getPath, hlk] at hp
            have hset : lookupJ (setJ base q (JVal.dict (deep_merge bv dv))) q
                = some (JVal.dict (deep_merge bv dv)) := by
              rw [lookupJ_setJ, if_pos rfl]
            simp only [getPath, hset]
            exact ih1 h1 qs hp
          · have hkq : ¬ k = q := fun hk => hqk hk.symm
            simp only [getPath, lookupJ_setJ, if_neg hkq]
            simp only [getPath] at hp
            exact hp
  | case3 base k v rest hnot ih =>
      rcases hl : lookupJ base k with _ | w
      · simp only [noClobber_cons, hl] at h
        simp only [deep_merge_cons, hl]
        intro path hp
        exact ih h path
          (getPath_setJ_of_not_dict base k v (fun bw hbw => by rw [hl] at hbw; cases hbw) path hp)
      · cases w with
        | dict bw =>
            cases v with
            | dict dv => exact (hnot bw dv hl rfl).elim
            | str s => simp only [noClobber_cons, hl] at h; cases h
            | bool b2 => simp only [noClobber_cons, hl] at h; cases h
            | nat n2 => simp only [noClobber_cons, hl] at h; cases h
            | list xs => simp only [noClobber_cons, hl] at h; cases h
        | str s =>
            simp only [noClobber_cons, hl] at h
            simp only [deep_merge_cons, hl]
            intro path hp
            exact ih h path (getPath_setJ_of_not_dict base k v
              (fun bw hbw => by rw [hl] at hbw; simp at hbw) path hp)
        | bool b2 =>
            simp only [noClobber_cons, hl] at h
            simp only [deep_merge_cons, hl]
            intro path hp
            exact ih h path (getPath_setJ_of_not_dict base k v
              (fun bw hbw => by rw [hl] at hbw; simp at hbw) path hp)
        | nat n2 =>
            simp only [noClobber_cons, hl] at h
            simp only [deep_merge_cons, hl]
            intro path hp
            exact ih h path (getPath_setJ_of_not_dict base k v
              (fun bw hbw => by rw [hl] at hbw; simp at hbw) path hp)
        | list xs =>
            simp only [noClobber_cons, hl] at h
            simp only [deep_merge_cons, hl]
            intro path hp
            exact ih h path (getPath_setJ_of_not_dict base k v
              (fun bw hbw => by rw [hl] at hbw; simp at hbw) path hp)

/-- The resolved configuration after the between_files override of the spec
example, computed. -/
theorem merged_between :
    deep_merge default_config betweenFilesOverride
      = setJ default_config "separators"
          (JVal.dict (setJ sepDefaults "between_files" (JVal.str "***"))) := by
  simp only [betweenFilesOverride, deep_merge_cons, deep_merge_nil, lookup_separators,
    show lookupJ sepDefaults "between_files" = some (JVal.str "---") from rfl]

/-- Counterexample to claim C4: overriding the separators mapping with a
scalar deletes the nested default keys, so not every key path of the default
tree keeps a value; separators.between_files is present in the defaults but
resolves to nothing after the merge. -/
theorem claim_C4_counterexample :
    config_get default_config ["separators", "between_files"] = some (JVal.str "---")
    ∧ config_get (deep_merge default_config clobberOverride) ["separators", "between_files"]
        = none := by
  constructor
  · rfl
  · simp only [clobberOverride, deep_merge_cons, deep_merge_nil, lookup_separators]
    rfl

/-- Claim C4 as amended: deep merging preserves every key path of the
default tree for any override that never replaces a default mapping by a
non-mapping value (scalar overrides at scalar positions replace, mapping
overrides recurse, keys absent from the override survive); in particular
the spec example override of separators.between_files changes exactly that
key and leaves the rest of the defaults, sibling separators keys included,
intact. -/
theorem claim_C4_override_preserves_defaults :
    (∀ (update : List (String × JVal)) (path : List String),
        noClobber default_config update = true →
        (config_get default_config path).isSome = true →
        (config_get (deep_merge default_config update) path).isSome = true)
    ∧ config_get (deep_merge default_config betweenFilesOverride) ["separators", "between_files"]
        = some (JVal.str "***")
    ∧ config_get (deep_merge default_config betweenFilesOverride) ["separators", "add_file_headers"]
        = some (JVal.bool true)
    ∧ config_get (deep_merge default_config betweenFilesOverride) ["separators", "header_format"]
        = some (JVal.str "<!-- Quelle: \x7bfilepath\x7d -->")
    ∧ config_get (deep_merge default_config betweenFilesOverride) ["output", "encoding"]
        = some (JVal.str "utf-8")
    ∧ config_get (deep_merge default_config betweenFilesOverride) ["processing", "skip_empty_files"]
        = some (JVal.bool true)
    ∧ config_get (deep_merge default_config betweenFilesOverride) ["filters", "max_file_size_mb"]
        = some (JVal.nat 10) := by
  refine ⟨fun update path h hp => deep_merge_preserves default_config update h path hp,
    ?_, ?_, ?_, ?_, ?_, ?_⟩ <;> rw [merged_between] <;> rfl

/-- Witness for the amended claim C4 at the spec example override and a
sibling separators key. -/
theorem claim_C4_override_preserves_defaults_witness :
    (config_get (deep_merge default_config betweenFilesOverride)
        ["separators", "add_file_headers"]).isSome = true :=
  claim_C4_override_preserves_defaults.1 betweenFilesOverride
    ["separators", "add_file_headers"]
    (by simp only [betweenFilesOverride, noClobber_cons, noClobber_nil, deep_merge_cons,
          deep_merge_nil, lookup_separators,
          show lookupJ sepDefaults "between_files" = some (JVal.str "---") from rfl]
        rfl)
    rfl

end MdComp
